import Mathlib

/-!
Verification development for the bridge_risk_profiler repository
(src/app.py). The core of the program is the pure function
`compute_risk`, which maps a base profile, eight boolean feature flags
and an integer TVL rank to three clamped sub-scores, an overall score
and a discrete label. We embed that function over ℚ (the Python source
uses floats whose constants are exact decimals; every arithmetic step
of the program is modelled exactly over ℚ, and Python's banker rounding
`round(x, 3)` is modelled as round-half-to-even on the exact value).
-/

namespace BridgeRisk

/-- Embeds the `BridgeProfile` dataclass of src/app.py (lines 8-15). -/
structure BridgeProfile where
  key : String
  name : String
  description : String
  base_technical_risk : ℚ
  base_economic_risk : ℚ
  base_operational_risk : ℚ
  deriving DecidableEq

/-- The "aztec" entry of the PROFILES catalog (src/app.py lines 19-26). -/
def aztec : BridgeProfile :=
  { key := "aztec"
    name := "Aztec-style Privacy Bridge"
    description := "Bridge for zk privacy rollups with encrypted state and batched proofs."
    base_technical_risk := 35/100
    base_economic_risk := 40/100
    base_operational_risk := 30/100 }

/-- The "zama" entry of the PROFILES catalog (src/app.py lines 27-34). -/
def zama : BridgeProfile :=
  { key := "zama"
    name := "Zama-style FHE Bridge"
    description := "Bridge interacting with FHE compute layers and encrypted pipelines."
    base_technical_risk := 45/100
    base_economic_risk := 42/100
    base_operational_risk := 38/100 }

/-- The "soundness" entry of the PROFILES catalog (src/app.py lines 35-42). -/
def soundness : BridgeProfile :=
  { key := "soundness"
    name := "Soundness-first Research Bridge"
    description := "Bridge designed with formal models and soundness-first engineering."
    base_technical_risk := 28/100
    base_economic_risk := 32/100
    base_operational_risk := 27/100 }

/-- Embeds `clamp(x, lo, hi) = max(lo, min(hi, x))` (src/app.py lines 46-47). -/
def clamp (x lo hi : ℚ) : ℚ := max lo (min hi x)

/-- Round a rational to the nearest integer, ties to even: the exact-value
model of Python float-to-integer-grid rounding used by `round(x, 3)`. -/
def roundHalfEven (q : ℚ) : ℤ :=
  if q - ⌊q⌋ < 1/2 then ⌊q⌋
  else if 1/2 < q - ⌊q⌋ then ⌊q⌋ + 1
  else if 2 ∣ ⌊q⌋ then ⌊q⌋ else ⌊q⌋ + 1

/-- Model of Python's `round(x, 3)` (src/app.py lines 131-134) on exact
rationals: round to the nearest multiple of 1/1000, ties to even. -/
def rnd3 (q : ℚ) : ℚ := (roundHalfEven (1000 * q) : ℚ) / 1000

/-- The running total `t` of `compute_risk` after the eight flag branches
(src/app.py lines 62-96), replaying exactly the updates that touch `t`. -/
def tRaw (p : BridgeProfile)
    (uses_zk uses_fhe has_light_client has_mpc_signers has_timelock
     has_audits has_formal_specs multi_chain : Bool) : ℚ :=
  let t := p.base_technical_risk
  let t := if uses_zk then t - 3/100 else t
  let t := if uses_fhe then t + 4/100 else t
  let t := if has_light_client then t - 6/100 else t
  let t := if has_mpc_signers then t + 4/100 else t
  let t := if has_audits then t - 7/100 else t
  let t := if has_formal_specs then t - 8/100 else t
  let t := if multi_chain then t + 3/100 else t
  t

/-- The running total `e` of `compute_risk` after the flag branches and the
TVL adjustment (src/app.py lines 63-99), replaying exactly the updates that
touch `e`, ending with `tvl_factor = clamp(tvl_rank / 50, 0, 1)` and
`e += 0.08 * tvl_factor`. -/
def eRaw (p : BridgeProfile)
    (uses_zk uses_fhe has_light_client has_mpc_signers has_timelock
     has_audits has_formal_specs multi_chain : Bool) (tvl_rank : ℤ) : ℚ :=
  let e := p.base_economic_risk
  let e := if has_light_client then e - 3/100 else e
  let e := if has_timelock then e - 5/100 else e
  let e := if has_formal_specs then e - 2/100 else e
  let tvl_factor := clamp ((tvl_rank : ℚ) / 50) 0 1
  e + 8/100 * tvl_factor

/-- The running total `o` of `compute_risk` after the eight flag branches
(src/app.py lines 64-96), replaying exactly the updates that touch `o`. -/
def oRaw (p : BridgeProfile)
    (uses_zk uses_fhe has_light_client has_mpc_signers has_timelock
     has_audits has_formal_specs multi_chain : Bool) : ℚ :=
  let o := p.base_operational_risk
  let o := if uses_zk then o + 2/100 else o
  let o := if uses_fhe then o + 3/100 else o
  let o := if has_mpc_signers then o + 5/100 else o
  let o := if has_timelock then o - 3/100 else o
  let o := if has_audits then o - 4/100 else o
  let o := if multi_chain then o + 4/100 else o
  o

/-- The label if-chain of `compute_risk` (src/app.py lines 107-116). -/
def labelOf (overall : ℚ) : String :=
  if overall < 25/100 then "very_low"
  else if overall < 45/100 then "low"
  else if overall < 65/100 then "moderate"
  else if overall < 80/100 then "high"
  else "very_high"

/-- The result dictionary of `compute_risk` (src/app.py lines 118-136). -/
structure RiskResult where
  profile : String
  profileName : String
  description : String
  usesZk : Bool
  usesFhe : Bool
  hasLightClient : Bool
  hasMpcSigners : Bool
  hasTimelock : Bool
  hasAudits : Bool
  hasFormalSpecs : Bool
  multiChain : Bool
  tvlRank : ℤ
  technicalRisk : ℚ
  economicRisk : ℚ
  operationalRisk : ℚ
  overallRisk : ℚ
  riskLabel : String
  deriving DecidableEq

/-- Embeds `compute_risk` (src/app.py lines 50-136): seed t/e/o from the
profile, apply the flag deltas and the TVL adjustment (`tRaw`, `eRaw`,
`oRaw`), clamp each to [0,1], take the clamped weighted overall, pick the
label from the unrounded overall, and emit the echo fields plus the four
scores rounded to 3 decimals. -/
def compute_risk (p : BridgeProfile)
    (uses_zk uses_fhe has_light_client has_mpc_signers has_timelock
     has_audits has_formal_specs multi_chain : Bool) (tvl_rank : ℤ) :
    RiskResult :=
  let t := clamp (tRaw p uses_zk uses_fhe has_light_client has_mpc_signers
    has_timelock has_audits has_formal_specs multi_chain) 0 1
  let e := clamp (eRaw p uses_zk uses_fhe has_light_client has_mpc_signers
    has_timelock has_audits has_formal_specs multi_chain tvl_rank) 0 1
  let o := clamp (oRaw p uses_zk uses_fhe has_light_client has_mpc_signers
    has_timelock has_audits has_formal_specs multi_chain) 0 1
  let overall := clamp (45/100 * t + 35/100 * e + 20/100 * o) 0 1
  { profile := p.key
    profileName := p.name
    description := p.description
    usesZk := uses_zk
    usesFhe := uses_fhe
    hasLightClient := has_light_client
    hasMpcSigners := has_mpc_signers
    hasTimelock := has_timelock
    hasAudits := has_audits
    hasFormalSpecs := has_formal_specs
    multiChain := multi_chain
    tvlRank := tvl_rank
    technicalRisk := rnd3 t
    economicRisk := rnd3 e
    operationalRisk := rnd3 o
    overallRisk := rnd3 overall
    riskLabel := labelOf overall }

/-- The caller-side coercion of the rank in `main` (src/app.py line 252):
`tvl_rank = max(1, args.tvl_rank)`. -/
def main_tvl_rank (args_tvl_rank : ℤ) : ℤ := max 1 args_tvl_rank

/-- Written from the spec table of per-flag deltas (spec §4.1): the technical
sub-score before clamping is the base value plus the sum of the active
technical deltas. Refinement target compared against `tRaw`. -/
def specTechnical (p : BridgeProfile)
    (uses_zk uses_fhe has_light_client has_mpc_signers has_timelock
     has_audits has_formal_specs multi_chain : Bool) : ℚ :=
  p.base_technical_risk
    + (if uses_zk then -(3/100) else 0)
    + (if uses_fhe then 4/100 else 0)
    + (if has_light_client then -(6/100) else 0)
    + (if has_mpc_signers then 4/100 else 0)
    + (if has_timelock then 0 else 0)
    + (if has_audits then -(7/100) else 0)
    + (if has_formal_specs then -(8/100) else 0)
    + (if multi_chain then 3/100 else 0)

/-- Written from the spec table of per-flag deltas (spec §4.1): the economic
sub-score before clamping is the base value plus the active economic deltas
plus `0.08 * clamp(tvlRank / 50, 0, 1)`. Refinement target compared against
`eRaw`. -/
def specEconomic (p : BridgeProfile)
    (uses_zk uses_fhe has_light_client has_mpc_signers has_timelock
     has_audits has_formal_specs multi_chain : Bool) (tvl_rank : ℤ) : ℚ :=
  p.base_economic_risk
    + (if uses_zk then 0 else 0)
    + (if uses_fhe then 0 else 0)
    + (if has_light_client then -(3/100) else 0)
    + (if has_mpc_signers then 0 else 0)
    + (if has_timelock then -(5/100) else 0)
    + (if has_audits then 0 else 0)
    + (if has_formal_specs then -(2/100) else 0)
    + (if multi_chain then 0 else 0)
    + 8/100 * clamp ((tvl_rank : ℚ) / 50) 0 1

/-- Written from the spec table of per-flag deltas (spec §4.1): the
operational sub-score before clamping is the base value plus the sum of the
active operational deltas. Refinement target compared against `oRaw`. -/
def specOperational (p : BridgeProfile)
    (uses_zk uses_fhe has_light_client has_mpc_signers has_timelock
     has_audits has_formal_specs multi_chain : Bool) : ℚ :=
  p.base_operational_risk
    + (if uses_zk then 2/100 else 0)
    + (if uses_fhe then 3/100 else 0)
    + (if has_light_client then 0 else 0)
    + (if has_mpc_signers then 5/100 else 0)
    + (if has_timelock then -(3/100) else 0)
    + (if has_audits then -(4/100) else 0)
    + (if has_formal_specs then 0 else 0)
    + (if multi_chain then 4/100 else 0)

/-- A profile outside the catalog (base technical risk above 1) used to
separate clamping the sub-scores before the weighted sum from clamping only
after it. -/
def extremeProfile : BridgeProfile :=
  { key := "extreme"
    name := "Extreme base profile"
    description := "Demonstration input with an out-of-range base value."
    base_technical_risk := 2
    base_economic_risk := 0
    base_operational_risk := 0 }

section Lemmas

/-- clamp to [0,1] is bounded below by 0. -/
lemma clamp01_nonneg (x : ℚ) : 0 ≤ clamp x 0 1 := le_max_left 0 _

/-- clamp to [0,1] is bounded above by 1. -/
lemma clamp01_le_one (x : ℚ) : clamp x 0 1 ≤ 1 :=
  max_le (by norm_num) (min_le_left 1 x)

/-- clamp is monotone in its clamped argument. -/
lemma clamp_le_clamp (lo hi : ℚ) {x y : ℚ} (h : x ≤ y) :
    clamp x lo hi ≤ clamp y lo hi :=
  max_le_max le_rfl (min_le_min le_rfl h)

/-- clamp to [0,1] is the identity on [0,1]. -/
lemma clamp01_eq_self {x : ℚ} (h0 : 0 ≤ x) (h1 : x ≤ 1) : clamp x 0 1 = x := by
  unfold clamp
  rw [min_eq_right h1, max_eq_right h0]

/-- Half-even rounding stays within 1/2 above the argument. -/
lemma roundHalfEven_le (q : ℚ) : (roundHalfEven q : ℚ) ≤ q + 1/2 := by
  have h1 := Int.floor_le q
  have h2 := Int.lt_floor_add_one q
  unfold roundHalfEven
  split_ifs <;> push_cast <;> linarith

/-- Half-even rounding stays within 1/2 below the argument. -/
lemma le_roundHalfEven (q : ℚ) : q - 1/2 ≤ (roundHalfEven q : ℚ) := by
  have h1 := Int.floor_le q
  have h2 := Int.lt_floor_add_one q
  unfold roundHalfEven
  split_ifs <;> push_cast <;> linarith

/-- Half-even rounding is monotone. -/
lemma roundHalfEven_mono {x y : ℚ} (h : x ≤ y) :
    roundHalfEven x ≤ roundHalfEven y := by
  rcases lt_or_le ⌊x⌋ ⌊y⌋ with hf | hf
  · have h1 : roundHalfEven x ≤ ⌊x⌋ + 1 := by
      unfold roundHalfEven; split_ifs <;> omega
    have h2 : ⌊y⌋ ≤ roundHalfEven y := by
      unfold roundHalfEven; split_ifs <;> omega
    omega
  · have hxy : ⌊x⌋ = ⌊y⌋ := le_antisymm (Int.floor_le_floor h) hf
    have hfr : x - (⌊y⌋ : ℚ) ≤ y - (⌊y⌋ : ℚ) := by linarith
    unfold roundHalfEven
    rw [hxy]
    split_ifs <;> first | rfl | omega | linarith

/-- rnd3 is monotone. -/
lemma rnd3_mono {x y : ℚ} (h : x ≤ y) : rnd3 x ≤ rnd3 y := by
  unfold rnd3
  have h1 : roundHalfEven (1000 * x) ≤ roundHalfEven (1000 * y) :=
    roundHalfEven_mono (by linarith)
  have h2 : ((roundHalfEven (1000 * x) : ℤ) : ℚ)
      ≤ ((roundHalfEven (1000 * y) : ℤ) : ℚ) := by exact_mod_cast h1
  linarith

/-- rnd3 preserves strict inequalities with a gap above 1/1000. -/
lemma rnd3_lt_rnd3 {x y : ℚ} (h : x + 1/1000 < y) : rnd3 x < rnd3 y := by
  unfold rnd3
  have h1 : (roundHalfEven (1000 * x) : ℚ) ≤ 1000 * x + 1/2 := roundHalfEven_le _
  have h2 : 1000 * y - 1/2 ≤ (roundHalfEven (1000 * y) : ℚ) := le_roundHalfEven _
  have h3 : ((roundHalfEven (1000 * x) : ℤ) : ℚ)
      < ((roundHalfEven (1000 * y) : ℤ) : ℚ) := by linarith
  linarith

/-- rnd3 maps nonnegative rationals to nonnegative rationals. -/
lemma rnd3_nonneg {q : ℚ} (h : 0 ≤ q) : 0 ≤ rnd3 q := by
  have h1 : rnd3 0 ≤ rnd3 q := rnd3_mono h
  have h2 : rnd3 0 = 0 := by norm_num [rnd3, roundHalfEven]
  linarith

/-- rnd3 maps rationals at most 1 to rationals at most 1. -/
lemma rnd3_le_one {q : ℚ} (h : q ≤ 1) : rnd3 q ≤ 1 := by
  have h1 : rnd3 q ≤ rnd3 1 := rnd3_mono h
  have h2 : rnd3 1 = 1 := by norm_num [rnd3, roundHalfEven]
  linarith

/-- A conditional decrement is an unconditional sum with a conditional
delta. -/
lemma if_sub_eq (c : Bool) (a d : ℚ) :
    (if c then a - d else a) = a + (if c then -d else 0) := by
  cases c <;> simp [sub_eq_add_neg]

/-- A conditional increment is an unconditional sum with a conditional
delta. -/
lemma if_add_eq (c : Bool) (a d : ℚ) :
    (if c then a + d else a) = a + (if c then d else 0) := by
  cases c <;> simp

/-- The sequential flag branches of the source compute the additive
per-flag technical deltas of the spec. -/
lemma tRaw_eq_spec (p : BridgeProfile)
    (zk fhe lc mpc tl au fs mc : Bool) :
    tRaw p zk fhe lc mpc tl au fs mc = specTechnical p zk fhe lc mpc tl au fs mc := by
  simp only [tRaw, specTechnical, if_sub_eq, if_add_eq, ite_self, add_zero]

/-- The sequential flag branches and TVL adjustment of the source compute
the additive economic deltas of the spec. -/
lemma eRaw_eq_spec (p : BridgeProfile)
    (zk fhe lc mpc tl au fs mc : Bool) (rank : ℤ) :
    eRaw p zk fhe lc mpc tl au fs mc rank
      = specEconomic p zk fhe lc mpc tl au fs mc rank := by
  simp only [eRaw, specEconomic, if_sub_eq, if_add_eq, ite_self, add_zero]

/-- The sequential flag branches of the source compute the additive
per-flag operational deltas of the spec. -/
lemma oRaw_eq_spec (p : BridgeProfile)
    (zk fhe lc mpc tl au fs mc : Bool) :
    oRaw p zk fhe lc mpc tl au fs mc = specOperational p zk fhe lc mpc tl au fs mc := by
  simp only [oRaw, specOperational, if_sub_eq, if_add_eq, ite_self, add_zero]

/-- The pre-clamp technical total stays within the sum of the negative and
positive per-flag deltas around the base value. -/
lemma tRaw_bounds (p : BridgeProfile) (zk fhe lc mpc tl au fs mc : Bool) :
    p.base_technical_risk - 24/100 ≤ tRaw p zk fhe lc mpc tl au fs mc
      ∧ tRaw p zk fhe lc mpc tl au fs mc ≤ p.base_technical_risk + 11/100 := by
  rw [tRaw_eq_spec]
  unfold specTechnical
  obtain ⟨h1a, h1b⟩ : -(3/100) ≤ (if zk then -(3/100) else (0:ℚ))
      ∧ (if zk then -(3/100) else (0:ℚ)) ≤ 0 := by cases zk <;> norm_num
  obtain ⟨h2a, h2b⟩ : 0 ≤ (if fhe then 4/100 else (0:ℚ))
      ∧ (if fhe then 4/100 else (0:ℚ)) ≤ 4/100 := by cases fhe <;> norm_num
  obtain ⟨h3a, h3b⟩ : -(6/100) ≤ (if lc then -(6/100) else (0:ℚ))
      ∧ (if lc then -(6/100) else (0:ℚ)) ≤ 0 := by cases lc <;> norm_num
  obtain ⟨h4a, h4b⟩ : 0 ≤ (if mpc then 4/100 else (0:ℚ))
      ∧ (if mpc then 4/100 else (0:ℚ)) ≤ 4/100 := by cases mpc <;> norm_num
  obtain ⟨h5a, h5b⟩ : -(7/100) ≤ (if au then -(7/100) else (0:ℚ))
      ∧ (if au then -(7/100) else (0:ℚ)) ≤ 0 := by cases au <;> norm_num
  obtain ⟨h6a, h6b⟩ : -(8/100) ≤ (if fs then -(8/100) else (0:ℚ))
      ∧ (if fs then -(8/100) else (0:ℚ)) ≤ 0 := by cases fs <;> norm_num
  obtain ⟨h7a, h7b⟩ : 0 ≤ (if mc then 3/100 else (0:ℚ))
      ∧ (if mc then 3/100 else (0:ℚ)) ≤ 3/100 := by cases mc <;> norm_num
  rw [ite_self]
  constructor <;> linarith

/-- The pre-clamp operational total stays within the sum of the negative and
positive per-flag deltas around the base value. -/
lemma oRaw_bounds (p : BridgeProfile) (zk fhe lc mpc tl au fs mc : Bool) :
    p.base_operational_risk - 7/100 ≤ oRaw p zk fhe lc mpc tl au fs mc
      ∧ oRaw p zk fhe lc mpc tl au fs mc ≤ p.base_operational_risk + 14/100 := by
  rw [oRaw_eq_spec]
  unfold specOperational
  obtain ⟨h1a, h1b⟩ : 0 ≤ (if zk then 2/100 else (0:ℚ))
      ∧ (if zk then 2/100 else (0:ℚ)) ≤ 2/100 := by cases zk <;> norm_num
  obtain ⟨h2a, h2b⟩ : 0 ≤ (if fhe then 3/100 else (0:ℚ))
      ∧ (if fhe then 3/100 else (0:ℚ)) ≤ 3/100 := by cases fhe <;> norm_num
  obtain ⟨h3a, h3b⟩ : 0 ≤ (if mpc then 5/100 else (0:ℚ))
      ∧ (if mpc then 5/100 else (0:ℚ)) ≤ 5/100 := by cases mpc <;> norm_num
  obtain ⟨h4a, h4b⟩ : -(3/100) ≤ (if tl then -(3/100) else (0:ℚ))
      ∧ (if tl then -(3/100) else (0:ℚ)) ≤ 0 := by cases tl <;> norm_num
  obtain ⟨h5a, h5b⟩ : -(4/100) ≤ (if au then -(4/100) else (0:ℚ))
      ∧ (if au then -(4/100) else (0:ℚ)) ≤ 0 := by cases au <;> norm_num
  obtain ⟨h6a, h6b⟩ : 0 ≤ (if mc then 4/100 else (0:ℚ))
      ∧ (if mc then 4/100 else (0:ℚ)) ≤ 4/100 := by cases mc <;> norm_num
  simp only [ite_self]
  constructor <;> linarith

/-- Enabling hasAudits shifts the pre-clamp technical total down by exactly
7/100. -/
lemma specTechnical_audits (p : BridgeProfile) (zk fhe lc mpc tl fs mc : Bool) :
    specTechnical p zk fhe lc mpc tl true fs mc
      = specTechnical p zk fhe lc mpc tl false fs mc - 7/100 := by
  simp [specTechnical]
  ring

/-- Enabling hasAudits shifts the pre-clamp operational total down by
exactly 4/100. -/
lemma specOperational_audits (p : BridgeProfile) (zk fhe lc mpc tl fs mc : Bool) :
    specOperational p zk fhe lc mpc tl true fs mc
      = specOperational p zk fhe lc mpc tl false fs mc - 4/100 := by
  simp [specOperational]
  ring

/-- The pre-clamp economic total is monotone in the TVL rank. -/
lemma eRaw_rank_mono (p : BridgeProfile) (zk fhe lc mpc tl au fs mc : Bool)
    {r1 r2 : ℤ} (h : r1 ≤ r2) :
    eRaw p zk fhe lc mpc tl au fs mc r1 ≤ eRaw p zk fhe lc mpc tl au fs mc r2 := by
  rw [eRaw_eq_spec, eRaw_eq_spec]
  unfold specEconomic
  have h1 : ((r1 : ℚ)) / 50 ≤ ((r2 : ℚ)) / 50 := by
    have h0 : (r1 : ℚ) ≤ (r2 : ℚ) := by exact_mod_cast h
    linarith
  have h2 := clamp_le_clamp 0 1 h1
  linarith

/-- For a profile whose base values leave room for the extreme per-flag
deltas, enabling hasAudits strictly lowers both the rounded technical score
and the rounded operational score. -/
lemma audits_strict_core (p : BridgeProfile) (zk fhe lc mpc tl fs mc : Bool)
    (ht1 : 24/100 ≤ p.base_technical_risk) (ht2 : p.base_technical_risk ≤ 89/100)
    (ho1 : 7/100 ≤ p.base_operational_risk) (ho2 : p.base_operational_risk ≤ 86/100) :
    rnd3 (clamp (tRaw p zk fhe lc mpc tl true fs mc) 0 1)
        < rnd3 (clamp (tRaw p zk fhe lc mpc tl false fs mc) 0 1)
    ∧ rnd3 (clamp (oRaw p zk fhe lc mpc tl true fs mc) 0 1)
        < rnd3 (clamp (oRaw p zk fhe lc mpc tl false fs mc) 0 1) := by
  obtain ⟨ha1, ha2⟩ := tRaw_bounds p zk fhe lc mpc tl true fs mc
  obtain ⟨hb1, hb2⟩ := tRaw_bounds p zk fhe lc mpc tl false fs mc
  obtain ⟨hc1, hc2⟩ := oRaw_bounds p zk fhe lc mpc tl true fs mc
  obtain ⟨hd1, hd2⟩ := oRaw_bounds p zk fhe lc mpc tl false fs mc
  have hdt : tRaw p zk fhe lc mpc tl true fs mc
      = tRaw p zk fhe lc mpc tl false fs mc - 7/100 := by
    rw [tRaw_eq_spec, tRaw_eq_spec, specTechnical_audits]
  have hdo : oRaw p zk fhe lc mpc tl true fs mc
      = oRaw p zk fhe lc mpc tl false fs mc - 4/100 := by
    rw [oRaw_eq_spec, oRaw_eq_spec, specOperational_audits]
  constructor
  · rw [clamp01_eq_self (by linarith) (by linarith),
      clamp01_eq_self (by linarith) (by linarith)]
    exact rnd3_lt_rnd3 (by linarith)
  · rw [clamp01_eq_self (by linarith) (by linarith),
      clamp01_eq_self (by linarith) (by linarith)]
    exact rnd3_lt_rnd3 (by linarith)

end Lemmas

/-- C1: for every profile and every combination of the eight boolean flags
and integer tvlRank, compute_risk computes the pre-clamp sub-scores by
starting from the profile's base values and adding exactly the spec's
per-flag deltas, then adding 0.08 * clamp(tvlRank/50, 0, 1) to e, then
clamping each of t, e, o independently to [0,1] (the three score fields are
these clamped totals, rounded only at the output boundary). -/
theorem C1_subscores_follow_spec_deltas (p : BridgeProfile)
    (zk fhe lc mpc tl au fs mc : Bool) (rank : ℤ) :
    (compute_risk p zk fhe lc mpc tl au fs mc rank).technicalRisk
        = rnd3 (clamp (specTechnical p zk fhe lc mpc tl au fs mc) 0 1)
    ∧ (compute_risk p zk fhe lc mpc tl au fs mc rank).economicRisk
        = rnd3 (clamp (specEconomic p zk fhe lc mpc tl au fs mc rank) 0 1)
    ∧ (compute_risk p zk fhe lc mpc tl au fs mc rank).operationalRisk
        = rnd3 (clamp (specOperational p zk fhe lc mpc tl au fs mc) 0 1) := by
  refine ⟨?_, ?_, ?_⟩
  · show rnd3 (clamp (tRaw p zk fhe lc mpc tl au fs mc) 0 1) = _
    rw [tRaw_eq_spec]
  · show rnd3 (clamp (eRaw p zk fhe lc mpc tl au fs mc rank) 0 1) = _
    rw [eRaw_eq_spec]
  · show rnd3 (clamp (oRaw p zk fhe lc mpc tl au fs mc) 0 1) = _
    rw [oRaw_eq_spec]

/-- C2: for every input the overall score equals
clamp(0.45*t + 0.35*e + 0.20*o) computed from the already-clamped
sub-scores; and clamping only after the weighted sum would give a different
result (witnessed by a profile whose base technical value exceeds 1), so the
intermediate clamping happens before the weighted sum, not after. -/
theorem C2_overall_from_clamped_subscores (p : BridgeProfile)
    (zk fhe lc mpc tl au fs mc : Bool) (rank : ℤ) :
    (compute_risk p zk fhe lc mpc tl au fs mc rank).overallRisk
        = rnd3 (clamp (45/100 * clamp (specTechnical p zk fhe lc mpc tl au fs mc) 0 1
            + 35/100 * clamp (specEconomic p zk fhe lc mpc tl au fs mc rank) 0 1
            + 20/100 * clamp (specOperational p zk fhe lc mpc tl au fs mc) 0 1) 0 1)
    ∧ (compute_risk extremeProfile false false false false false false false false 0).overallRisk
        ≠ rnd3 (clamp (45/100 * specTechnical extremeProfile false false false false false false false false
            + 35/100 * specEconomic extremeProfile false false false false false false false false 0
            + 20/100 * specOperational extremeProfile false false false false false false false false) 0 1) := by
  constructor
  · show rnd3 (clamp (45/100 * clamp (tRaw p zk fhe lc mpc tl au fs mc) 0 1
        + 35/100 * clamp (eRaw p zk fhe lc mpc tl au fs mc rank) 0 1
        + 20/100 * clamp (oRaw p zk fhe lc mpc tl au fs mc) 0 1) 0 1) = _
    rw [tRaw_eq_spec, eRaw_eq_spec, oRaw_eq_spec]
  · show rnd3 (clamp (45/100 * clamp (tRaw extremeProfile false false false false false false false false) 0 1
        + 35/100 * clamp (eRaw extremeProfile false false false false false false false false 0) 0 1
        + 20/100 * clamp (oRaw extremeProfile false false false false false false false false) 0 1) 0 1) ≠ _
    norm_num [tRaw, eRaw, oRaw, specTechnical, specEconomic, specOperational,
      clamp, rnd3, roundHalfEven, extremeProfile, max_def, min_def]

/-- C3: for every profile and every combination of flags and tvlRank, the
four output fields technicalRisk, economicRisk, operationalRisk and
overallRisk all lie in the closed interval [0,1]. -/
theorem C3_outputs_in_unit_interval (p : BridgeProfile)
    (zk fhe lc mpc tl au fs mc : Bool) (rank : ℤ) :
    (0 ≤ (compute_risk p zk fhe lc mpc tl au fs mc rank).technicalRisk
      ∧ (compute_risk p zk fhe lc mpc tl au fs mc rank).technicalRisk ≤ 1)
    ∧ (0 ≤ (compute_risk p zk fhe lc mpc tl au fs mc rank).economicRisk
      ∧ (compute_risk p zk fhe lc mpc tl au fs mc rank).economicRisk ≤ 1)
    ∧ (0 ≤ (compute_risk p zk fhe lc mpc tl au fs mc rank).operationalRisk
      ∧ (compute_risk p zk fhe lc mpc tl au fs mc rank).operationalRisk ≤ 1)
    ∧ (0 ≤ (compute_risk p zk fhe lc mpc tl au fs mc rank).overallRisk
      ∧ (compute_risk p zk fhe lc mpc tl au fs mc rank).overallRisk ≤ 1) := by
  refine ⟨⟨?_, ?_⟩, ⟨?_, ?_⟩, ⟨?_, ?_⟩, ⟨?_, ?_⟩⟩ <;>
    first
      | exact rnd3_nonneg (clamp01_nonneg _)
      | exact rnd3_le_one (clamp01_le_one _)

/-- C4: the label thresholds on the unrounded overall are half-open
intervals with inclusive lower bounds, and the four boundary points fall in
the upper interval: 0.25 gives "low", 0.45 gives "moderate", 0.65 gives
"high" and 0.80 gives "very_high". -/
theorem C4_label_thresholds :
    (∀ x : ℚ,
      (0 ≤ x ∧ x < 25/100 → labelOf x = "very_low")
      ∧ (25/100 ≤ x ∧ x < 45/100 → labelOf x = "low")
      ∧ (45/100 ≤ x ∧ x < 65/100 → labelOf x = "moderate")
      ∧ (65/100 ≤ x ∧ x < 80/100 → labelOf x = "high")
      ∧ (80/100 ≤ x ∧ x ≤ 1 → labelOf x = "very_high"))
    ∧ labelOf (25/100) = "low"
    ∧ labelOf (45/100) = "moderate"
    ∧ labelOf (65/100) = "high"
    ∧ labelOf (80/100) = "very_high" := by
  constructor
  · intro x
    refine ⟨?_, ?_, ?_, ?_, ?_⟩ <;> rintro ⟨h1, h2⟩ <;> unfold labelOf <;>
      split_ifs <;> first | rfl | linarith
  · refine ⟨?_, ?_, ?_, ?_⟩ <;> norm_num [labelOf]

/-- C4 witness: the classification applied at the concrete overall 0.50. -/
theorem C4_label_thresholds_holds : labelOf (50/100) = "moderate" := by
  have h := C4_label_thresholds.1 (50/100)
  exact h.2.2.1 ⟨by norm_num, by norm_num⟩

/-- C5: for the profile zama with usesFhe, hasMpcSigners, multiChain set and
tvlRank 50, compute_risk returns technicalRisk 0.56, economicRisk 0.50,
operationalRisk 0.50, overallRisk 0.527 and riskLabel "moderate". -/
theorem C5_scenario_zama :
    (compute_risk zama false true false true false false false true 50).technicalRisk = 56/100
    ∧ (compute_risk zama false true false true false false false true 50).economicRisk = 50/100
    ∧ (compute_risk zama false true false true false false false true 50).operationalRisk = 50/100
    ∧ (compute_risk zama false true false true false false false true 50).overallRisk = 527/1000
    ∧ (compute_risk zama false true false true false false false true 50).riskLabel = "moderate" := by
  refine ⟨?_, ?_, ?_, ?_, ?_⟩ <;>
    norm_num [compute_risk, tRaw, eRaw, oRaw, clamp, rnd3, roundHalfEven,
      labelOf, zama, max_def, min_def]

/-- C6: for every catalog profile and every fixed assignment of the other
seven flags and tvlRank, the result with hasAudits true has technicalRisk
and operationalRisk no larger than the result with hasAudits false, and
strictly smaller unless the corresponding score is already clamped at 0. -/
theorem C6_audits_never_increase_risk (p : BridgeProfile)
    (zk fhe lc mpc tl fs mc : Bool) (rank : ℤ)
    (hp : p = aztec ∨ p = zama ∨ p = soundness) :
    ((compute_risk p zk fhe lc mpc tl true fs mc rank).technicalRisk
        ≤ (compute_risk p zk fhe lc mpc tl false fs mc rank).technicalRisk
      ∧ (compute_risk p zk fhe lc mpc tl true fs mc rank).operationalRisk
        ≤ (compute_risk p zk fhe lc mpc tl false fs mc rank).operationalRisk)
    ∧ ((compute_risk p zk fhe lc mpc tl true fs mc rank).technicalRisk
          < (compute_risk p zk fhe lc mpc tl false fs mc rank).technicalRisk
        ∨ (compute_risk p zk fhe lc mpc tl false fs mc rank).technicalRisk = 0)
    ∧ ((compute_risk p zk fhe lc mpc tl true fs mc rank).operationalRisk
          < (compute_risk p zk fhe lc mpc tl false fs mc rank).operationalRisk
        ∨ (compute_risk p zk fhe lc mpc tl false fs mc rank).operationalRisk = 0) := by
  have key :
      rnd3 (clamp (tRaw p zk fhe lc mpc tl true fs mc) 0 1)
          < rnd3 (clamp (tRaw p zk fhe lc mpc tl false fs mc) 0 1)
      ∧ rnd3 (clamp (oRaw p zk fhe lc mpc tl true fs mc) 0 1)
          < rnd3 (clamp (oRaw p zk fhe lc mpc tl false fs mc) 0 1) := by
    rcases hp with rfl | rfl | rfl <;>
      refine audits_strict_core _ zk fhe lc mpc tl fs mc ?_ ?_ ?_ ?_ <;>
        norm_num [aztec, zama, soundness]
  exact ⟨⟨le_of_lt key.1, le_of_lt key.2⟩, Or.inl key.1, Or.inl key.2⟩

/-- C6 witness: the instantiation at profile aztec, all other flags false,
tvlRank 25. -/
theorem C6_audits_never_increase_risk_holds :
    ((compute_risk aztec false false false false false true false false 25).technicalRisk
        ≤ (compute_risk aztec false false false false false false false false 25).technicalRisk
      ∧ (compute_risk aztec false false false false false true false false 25).operationalRisk
        ≤ (compute_risk aztec false false false false false false false false 25).operationalRisk)
    ∧ ((compute_risk aztec false false false false false true false false 25).technicalRisk
          < (compute_risk aztec false false false false false false false false 25).technicalRisk
        ∨ (compute_risk aztec false false false false false false false false 25).technicalRisk = 0)
    ∧ ((compute_risk aztec false false false false false true false false 25).operationalRisk
          < (compute_risk aztec false false false false false false false false 25).operationalRisk
        ∨ (compute_risk aztec false false false false false false false false 25).operationalRisk = 0) :=
  C6_audits_never_increase_risk aztec false false false false false false false 25 (Or.inl rfl)

/-- C7: economicRisk is monotone in tvlRank: for every profile and flag
assignment, a smaller rank never yields a larger economicRisk. -/
theorem C7_economic_monotone_in_rank (p : BridgeProfile)
    (zk fhe lc mpc tl au fs mc : Bool) {r1 r2 : ℤ} (h : r1 ≤ r2) :
    (compute_risk p zk fhe lc mpc tl au fs mc r1).economicRisk
      ≤ (compute_risk p zk fhe lc mpc tl au fs mc r2).economicRisk := by
  show rnd3 (clamp (eRaw p zk fhe lc mpc tl au fs mc r1) 0 1)
      ≤ rnd3 (clamp (eRaw p zk fhe lc mpc tl au fs mc r2) 0 1)
  exact rnd3_mono (clamp_le_clamp 0 1 (eRaw_rank_mono p zk fhe lc mpc tl au fs mc h))

/-- C7 witness: the instantiation at profile aztec, all flags false, ranks
10 and 20. -/
theorem C7_economic_monotone_in_rank_holds :
    (compute_risk aztec false false false false false false false false 10).economicRisk
      ≤ (compute_risk aztec false false false false false false false false 20).economicRisk :=
  C7_economic_monotone_in_rank aztec false false false false false false false false
    (by norm_num : (10:ℤ) ≤ 20)

/-- C8: the caller (main) clamps tvlRank to a minimum of 1 before invoking
compute_risk, and the core formula performs no defense of its own: invoked
directly at tvlRank 0 (≤ 0) it returns a different economicRisk than it
does after the caller's pre-clamp of that rank to 1. -/
theorem C8_caller_pre_clamps_rank :
    (∀ r : ℤ, 1 ≤ main_tvl_rank r)
    ∧ (compute_risk aztec false false false false false false false false 0).economicRisk
      ≠ (compute_risk aztec false false false false false false false false
          (main_tvl_rank 0)).economicRisk := by
  constructor
  · intro r
    exact le_max_left 1 r
  · have h1 : main_tvl_rank 0 = 1 := by norm_num [main_tvl_rank]
    rw [h1]
    have h2 : (compute_risk aztec false false false false false false false false 0).economicRisk
        = 400/1000 := by
      norm_num [compute_risk, tRaw, eRaw, oRaw, clamp, rnd3, roundHalfEven,
        aztec, max_def, min_def]
    have h3 : (compute_risk aztec false false false false false false false false 1).economicRisk
        = 402/1000 := by
      norm_num [compute_risk, tRaw, eRaw, oRaw, clamp, rnd3, roundHalfEven,
        aztec, max_def, min_def]
    rw [h2, h3]
    norm_num

/-- C9: compute_risk echoes its inputs unchanged in the result: the profile
key, name and description, the eight boolean flags and the tvlRank exactly
as passed, with no coercion or clamping applied to the echoed values. -/
theorem C9_inputs_echoed_unchanged (p : BridgeProfile)
    (zk fhe lc mpc tl au fs mc : Bool) (rank : ℤ) :
    (compute_risk p zk fhe lc mpc tl au fs mc rank).profile = p.key
    ∧ (compute_risk p zk fhe lc mpc tl au fs mc rank).profileName = p.name
    ∧ (compute_risk p zk fhe lc mpc tl au fs mc rank).description = p.description
    ∧ (compute_risk p zk fhe lc mpc tl au fs mc rank).usesZk = zk
    ∧ (compute_risk p zk fhe lc mpc tl au fs mc rank).usesFhe = fhe
    ∧ (compute_risk p zk fhe lc mpc tl au fs mc rank).hasLightClient = lc
    ∧ (compute_risk p zk fhe lc mpc tl au fs mc rank).hasMpcSigners = mpc
    ∧ (compute_risk p zk fhe lc mpc tl au fs mc rank).hasTimelock = tl
    ∧ (compute_risk p zk fhe lc mpc tl au fs mc rank).hasAudits = au
    ∧ (compute_risk p zk fhe lc mpc tl au fs mc rank).hasFormalSpecs = fs
    ∧ (compute_risk p zk fhe lc mpc tl au fs mc rank).multiChain = mc
    ∧ (compute_risk p zk fhe lc mpc tl au fs mc rank).tvlRank = rank :=
  ⟨rfl, rfl, rfl, rfl, rfl, rfl, rfl, rfl, rfl, rfl, rfl, rfl⟩

/-- C10: riskLabel is determined by the unrounded overall value: for every
input the label equals the classification of the exact weighted sum of the
clamped sub-scores; and there is an input (aztec with hasLightClient,
hasAudits, hasFormalSpecs and tvlRank 22, whose exact overall is 0.24982)
where 3-decimal rounding moves overallRisk across the 0.25 threshold, so
classifying the rounded field would give a different label. -/
theorem C10_label_uses_unrounded_overall (p : BridgeProfile)
    (zk fhe lc mpc tl au fs mc : Bool) (rank : ℤ) :
    (compute_risk p zk fhe lc mpc tl au fs mc rank).riskLabel
        = labelOf (clamp (45/100 * clamp (specTechnical p zk fhe lc mpc tl au fs mc) 0 1
            + 35/100 * clamp (specEconomic p zk fhe lc mpc tl au fs mc rank) 0 1
            + 20/100 * clamp (specOperational p zk fhe lc mpc tl au fs mc) 0 1) 0 1)
    ∧ labelOf ((compute_risk aztec false false true false false true true false 22).overallRisk)
        ≠ (compute_risk aztec false false true false false true true false 22).riskLabel := by
  constructor
  · show labelOf (clamp (45/100 * clamp (tRaw p zk fhe lc mpc tl au fs mc) 0 1
        + 35/100 * clamp (eRaw p zk fhe lc mpc tl au fs mc rank) 0 1
        + 20/100 * clamp (oRaw p zk fhe lc mpc tl au fs mc) 0 1) 0 1) = _
    rw [tRaw_eq_spec, eRaw_eq_spec, oRaw_eq_spec]
  · have h1 : (compute_risk aztec false false true false false true true false 22).overallRisk
        = 250/1000 := by
      norm_num [compute_risk, tRaw, eRaw, oRaw, clamp, rnd3, roundHalfEven,
        aztec, max_def, min_def]
    have h2 : (compute_risk aztec false false true false false true true false 22).riskLabel
        = "very_low" := by
      norm_num [compute_risk, tRaw, eRaw, oRaw, clamp, rnd3, roundHalfEven,
        labelOf, aztec, max_def, min_def]
    rw [h1, h2]
    have h3 : labelOf (250/1000) = "low" := by norm_num [labelOf]
    rw [h3]
    decide

end BridgeRisk
